import Mathlib

/-!
Verification of the vodosasha sales-bot core: the Inventory Ledger and
Order Fulfillment Transaction (`src/db/database.py`), the Tool Executor
(`src/bot/tools.py`), and the Tool-Orchestration Loop
(`src/bot/yandex_gpt.py`), shallowly embedded in Lean.

The relational store is modelled as an explicit `DbState` record; each SQL
statement becomes a pure function on that state.  A Python function that can
raise is modelled with the `PyRes` result type; the `async with
conn.transaction()` block in `Database.create_order` is modelled as an atomic
step that, on an escaping exception, restores the pre-call state (rollback).
-/

namespace Vodosasha

/-- A row of the `products` table (columns used by the bot). -/
structure Product where
  id : Nat
  sku : String
  name : String
  volume : String
  pack_size : Int
  price_per_pack : Int
  deriving DecidableEq, Repr

/-- A row of the `inventory` table. -/
structure InvRow where
  product_id : Nat
  stock_packs : Int
  reserved_packs : Int
  deriving DecidableEq, Repr

/-- A row of the `customers` table.  `name` and `phone` are nullable because
`tool_create_order` passes `args.get("customer_name")` / `args.get("customer_phone")`,
which may be `None`. -/
structure Customer where
  id : Nat
  name : Option String
  phone : Option String
  city : String
  deriving DecidableEq, Repr

/-- A row of the `orders` table (columns written by `Database.create_order`). -/
structure OrderRow where
  id : Nat
  customer_id : Nat
  channel : String
  city : String
  address : String
  total_amount : Int
  discount_amount : Int
  final_amount : Int
  deriving DecidableEq, Repr

/-- A row of the `order_items` table. -/
structure OrderItemRow where
  order_id : Nat
  product_id : Nat
  sku : String
  qty_packs : Int
  price_per_pack : Int
  subtotal : Int
  deriving DecidableEq, Repr

/-- One element of the `items` list passed to `Database.create_order`
(the dicts built in `tool_create_order`). -/
structure OrderInput where
  product_id : Nat
  sku : String
  qty : Int
  price : Int
  subtotal : Int
  deriving DecidableEq, Repr

/-- The relational store.  `next_order_id` / `next_customer_id` model the
serial primary keys returned by `INSERT ... RETURNING id`. -/
structure DbState where
  products : List Product
  inventory : List InvRow
  customers : List Customer
  orders : List OrderRow
  order_items : List OrderItemRow
  next_order_id : Nat
  next_customer_id : Nat
  deriving DecidableEq, Repr

/-- Result of a Python call that may raise: `ok` is a normal return,
`exc` an escaping exception carrying `str(e)`. -/
inductive PyRes (α : Type) where
  | ok (val : α)
  | exc (msg : String)
  deriving DecidableEq, Repr

/-- `true` iff the call returned normally (no exception escaped). -/
def PyRes.isReturn : PyRes α → Bool
  | .ok _ => true
  | .exc _ => false

/-! ## Inventory Ledger primitive

`Database.create_order` reserves stock with the single guarded statement

    UPDATE inventory SET reserved_packs = reserved_packs + $2
    WHERE product_id = $1 AND stock_packs - reserved_packs >= $2
    RETURNING id

`tryReserve` is that statement's effect on one `inventory` row. -/

/-- The guarded reservation update on a single inventory row: increments
`reserved_packs` by `qty` exactly when `stock_packs - reserved_packs >= qty`,
and reports whether the row was updated. -/
def tryReserve (r : InvRow) (qty : Int) : InvRow × Bool :=
  if r.stock_packs - r.reserved_packs ≥ qty then
    ({ r with reserved_packs := r.reserved_packs + qty }, true)
  else
    (r, false)

theorem tryReserve_stock (r : InvRow) (qty : Int) :
    (tryReserve r qty).1.stock_packs = r.stock_packs := by
  unfold tryReserve
  split <;> rfl

theorem tryReserve_pid (r : InvRow) (qty : Int) :
    (tryReserve r qty).1.product_id = r.product_id := by
  unfold tryReserve
  split <;> rfl

theorem tryReserve_true_iff (r : InvRow) (qty : Int) :
    (tryReserve r qty).2 = true ↔ r.stock_packs - r.reserved_packs ≥ qty := by
  by_cases hc : r.stock_packs - r.reserved_packs ≥ qty <;> simp [tryReserve, hc]

theorem tryReserve_of_true (r : InvRow) (qty : Int)
    (h : (tryReserve r qty).2 = true) :
    (tryReserve r qty).1 = { r with reserved_packs := r.reserved_packs + qty } := by
  by_cases hc : r.stock_packs - r.reserved_packs ≥ qty
  · simp [tryReserve, hc]
  · simp [tryReserve, hc] at h

theorem tryReserve_of_false (r : InvRow) (qty : Int)
    (h : (tryReserve r qty).2 = false) :
    (tryReserve r qty).1 = r := by
  by_cases hc : r.stock_packs - r.reserved_packs ≥ qty
  · simp [tryReserve, hc] at h
  · simp [tryReserve, hc]

/-- C2: the reservation primitive is a conditional update: it reports success
iff the resulting `reserved_packs` is at most `stock_packs` (equivalently,
`stock_packs - reserved_packs ≥ qty` before the update); on success it
increments `reserved_packs` by `qty`, on failure it leaves the row unchanged,
and it never modifies `stock_packs`. -/
theorem tryReserve_conditional_update (r : InvRow) (qty : Int) :
    ((tryReserve r qty).2 = true ↔ r.reserved_packs + qty ≤ r.stock_packs)
    ∧ ((tryReserve r qty).2 = true ↔ r.stock_packs - r.reserved_packs ≥ qty)
    ∧ ((tryReserve r qty).2 = true →
        (tryReserve r qty).1 = { r with reserved_packs := r.reserved_packs + qty })
    ∧ ((tryReserve r qty).2 = false → (tryReserve r qty).1 = r)
    ∧ (tryReserve r qty).1.stock_packs = r.stock_packs := by
  refine ⟨?_, tryReserve_true_iff r qty, tryReserve_of_true r qty,
    tryReserve_of_false r qty, tryReserve_stock r qty⟩
  rw [tryReserve_true_iff]
  omega

/-- Witness for C2 at a concrete row: stock 10, reserved 3, request 4 succeeds
and moves reserved to 7; request 8 fails and leaves the row unchanged. -/
theorem tryReserve_conditional_update_witness :
    (tryReserve ⟨1, 10, 3⟩ 4).2 = true
    ∧ (tryReserve ⟨1, 10, 3⟩ 4).1 = ⟨1, 10, 7⟩
    ∧ (tryReserve ⟨1, 10, 3⟩ 8).2 = false
    ∧ (tryReserve ⟨1, 10, 3⟩ 8).1 = ⟨1, 10, 3⟩ := by
  have h4 := tryReserve_conditional_update ⟨1, 10, 3⟩ 4
  exact ⟨h4.1.mpr (by decide), by decide, by decide, by decide⟩

/-! ## Concurrent reservations against one product

Each reservation is the single guarded `UPDATE` above, which the store
executes as one indivisible conditional update.  Any concurrent execution of
such atomic operations against one row is therefore equivalent to some serial
order of them; `runReserves` runs one such serialization and records which
attempts succeeded. -/

/-- Run a serialized sequence of `tryReserve` attempts against one inventory
row, returning the final row and the success flag of each attempt in order. -/
def runReserves (r : InvRow) : List Int → InvRow × List Bool
  | [] => (r, [])
  | q :: qs =>
    ((runReserves (tryReserve r q).1 qs).1,
     (tryReserve r q).2 :: (runReserves (tryReserve r q).1 qs).2)

/-- Total quantity of the attempts whose success flag is `true`. -/
def sumGranted : List Int → List Bool → Int
  | q :: qs, b :: bs => (if b then q else 0) + sumGranted qs bs
  | _, _ => 0

theorem runReserves_stock (r : InvRow) (qs : List Int) :
    (runReserves r qs).1.stock_packs = r.stock_packs := by
  induction qs generalizing r with
  | nil => rfl
  | cons q qs ih =>
    simp only [runReserves]
    rw [ih]
    exact tryReserve_stock r q

theorem runReserves_reserved (r : InvRow) (qs : List Int) :
    (runReserves r qs).1.reserved_packs
      = r.reserved_packs + sumGranted qs (runReserves r qs).2 := by
  induction qs generalizing r with
  | nil => simp [runReserves, sumGranted]
  | cons q qs ih =>
    simp only [runReserves, sumGranted]
    by_cases hc : r.stock_packs - r.reserved_packs ≥ q
    · have ht : (tryReserve r q).2 = true := (tryReserve_true_iff r q).mpr hc
      rw [tryReserve_of_true r q ht, ht, ih]
      simp
      ring
    · have hf : (tryReserve r q).2 = false := by
        rcases hb : (tryReserve r q).2 with _ | _
        · rfl
        · exact absurd ((tryReserve_true_iff r q).mp hb) hc
      rw [tryReserve_of_false r q hf, hf, ih]
      simp

theorem runReserves_le (r : InvRow) (qs : List Int)
    (h : r.reserved_packs ≤ r.stock_packs) :
    (runReserves r qs).1.reserved_packs ≤ r.stock_packs := by
  induction qs generalizing r with
  | nil => exact h
  | cons q qs ih =>
    simp only [runReserves]
    by_cases hc : r.stock_packs - r.reserved_packs ≥ q
    · have ht : (tryReserve r q).2 = true := (tryReserve_true_iff r q).mpr hc
      rw [tryReserve_of_true r q ht]
      have := ih { r with reserved_packs := r.reserved_packs + q } (by simp; omega)
      simpa using this
    · have hf : (tryReserve r q).2 = false := by
        rcases hb : (tryReserve r q).2 with _ | _
        · rfl
        · exact absurd ((tryReserve_true_iff r q).mp hb) hc
      rw [tryReserve_of_false r q hf]
      exact ih r h

/-- C3: for every serialization of a set of atomic reservation attempts
against one product (each attempt being the indivisible guarded update),
the sum of the successfully granted quantities never exceeds the initial
`stock_packs`; in particular two attempts cannot both succeed unless their
combined quantity fits in the initially available stock. -/
theorem concurrent_reserves_no_oversell (r : InvRow) (qs : List Int)
    (h0 : 0 ≤ r.reserved_packs) (h1 : r.reserved_packs ≤ r.stock_packs) :
    sumGranted qs (runReserves r qs).2 ≤ r.stock_packs
    ∧ ∀ a b : Int, (runReserves r [a, b]).2 = [true, true] →
        a + b ≤ r.stock_packs - r.reserved_packs := by
  constructor
  · have hres := runReserves_reserved r qs
    have hle := runReserves_le r qs h1
    omega
  · intro a b hab
    have hres := runReserves_reserved r [a, b]
    have hle := runReserves_le r [a, b] h1
    rw [hab] at hres
    simp [sumGranted] at hres
    omega

/-- Witness for C3: stock 10, reserved 0, attempts 6, 7, 3: the granted total
is at most 10, and 6 and 7 cannot both be granted. -/
theorem concurrent_reserves_no_oversell_witness :
    sumGranted [6, 7, 3] (runReserves ⟨1, 10, 0⟩ [6, 7, 3]).2 ≤ 10
    ∧ ¬ (runReserves ⟨1, 10, 0⟩ [6, 7]).2 = [true, true] := by
  have h := concurrent_reserves_no_oversell ⟨1, 10, 0⟩ [6, 7, 3] (by decide) (by decide)
  refine ⟨by simpa using h.1, fun hc => ?_⟩
  have h2 := h.2 6 7 hc
  norm_num at h2

/-! ## Order Fulfillment Transaction (`Database.create_order`)

The Python body runs inside `async with conn.transaction()`: the reservation
pass, the `orders` insert, the `order_items` inserts and the stock deduction
pass commit together, and an escaping exception rolls everything back.  The
transaction is modelled as one atomic step on `DbState`; a raised
`ValueError` yields `(.exc msg, s)` with `s` the pre-call state. -/

/-- Effect of the guarded reservation `UPDATE` on one row of the table:
rows of other products are untouched; the matching product's row is updated
exactly when its guard holds. -/
def reserveRow (pid : Nat) (qty : Int) (r : InvRow) : InvRow :=
  if r.product_id = pid then (tryReserve r qty).1 else r

/-- The guarded reservation `UPDATE ... RETURNING id` on the whole
`inventory` table: updates every matching row and reports whether any row
matched (Python: `if not result: raise ValueError(...)`). -/
def reserveUpdate (rows : List InvRow) (pid : Nat) (qty : Int) :
    List InvRow × Bool :=
  (rows.map (reserveRow pid qty),
   rows.any (fun r => r.product_id == pid && (tryReserve r qty).2))

/-- Effect of the unguarded stock-deduction `UPDATE` on one row. -/
def deductRow (pid : Nat) (qty : Int) (r : InvRow) : InvRow :=
  if r.product_id = pid then
    { r with stock_packs := r.stock_packs - qty,
             reserved_packs := r.reserved_packs - qty }
  else r

/-- `UPDATE inventory SET stock_packs = stock_packs - $2,
reserved_packs = reserved_packs - $2 WHERE product_id = $1`. -/
def deductUpdate (rows : List InvRow) (pid : Nat) (qty : Int) : List InvRow :=
  rows.map (deductRow pid qty)

/-- The reservation pass of `Database.create_order`: reserve each item in
order; on the first item whose guarded update matches no row, raise
`ValueError(f"Недостаточно товара {item['sku']}")`. -/
def reserveAll : List InvRow → List OrderInput → Except String (List InvRow)
  | rows, [] => .ok rows
  | rows, it :: rest =>
    if (reserveUpdate rows it.product_id it.qty).2 then
      reserveAll (reserveUpdate rows it.product_id it.qty).1 rest
    else
      .error ("Недостаточно товара " ++ it.sku)

/-- `Database.create_order`: one atomic transaction that reserves every item,
inserts the `orders` row and its `order_items` rows, deducts the reserved
stock, and returns the new order id; a reservation failure raises and rolls
the whole transaction back. -/
def db_create_order (s : DbState) (customer_id : Nat)
    (channel city address : String)
    (total_amount discount_amount final_amount : Int)
    (items : List OrderInput) : PyRes Nat × DbState :=
  match reserveAll s.inventory items with
  | .error msg => (.exc msg, s)
  | .ok inv1 =>
    let order_id := s.next_order_id
    let orderRow : OrderRow :=
      { id := order_id, customer_id := customer_id, channel := channel,
        city := city, address := address, total_amount := total_amount,
        discount_amount := discount_amount, final_amount := final_amount }
    let itemRows := items.map (fun it =>
      ({ order_id := order_id, product_id := it.product_id, sku := it.sku,
         qty_packs := it.qty, price_per_pack := it.price,
         subtotal := it.subtotal } : OrderItemRow))
    let inv2 := items.foldl
      (fun rows it => deductUpdate rows it.product_id it.qty) inv1
    (.ok order_id,
     { s with inventory := inv2,
              orders := s.orders ++ [orderRow],
              order_items := s.order_items ++ itemRows,
              next_order_id := order_id + 1 })

theorem reserveAll_error_mem :
    ∀ (rows : List InvRow) (items : List OrderInput) (msg : String),
      reserveAll rows items = .error msg →
      ∃ it ∈ items, msg = "Недостаточно товара " ++ it.sku := by
  intro rows items
  induction items generalizing rows with
  | nil => intro msg h; simp [reserveAll] at h
  | cons it rest ih =>
    intro msg h
    simp only [reserveAll] at h
    split at h
    · obtain ⟨it', hmem, he⟩ := ih _ msg h
      exact ⟨it', List.mem_cons_of_mem _ hmem, he⟩
    · exact ⟨it, List.mem_cons_self _ _, (Except.error.injEq _ _).mp h |>.symm⟩

/-- C1: `Database.create_order` is all-or-nothing: whenever any item's
reservation fails, the call raises and the post-call state is exactly the
pre-call state — no `orders` row, no `order_items` row, and no net change to
any product's `reserved_packs` or `stock_packs` survive; the escaping
message names a requested item's sku. -/
theorem create_order_all_or_nothing (s : DbState) (cid : Nat)
    (ch city addr : String) (tot disc fin : Int) (items : List OrderInput) :
    (∀ msg, reserveAll s.inventory items = .error msg →
      db_create_order s cid ch city addr tot disc fin items = (.exc msg, s))
    ∧ (∀ e s', db_create_order s cid ch city addr tot disc fin items = (.exc e, s') →
        s' = s ∧ s'.orders = s.orders ∧ s'.order_items = s.order_items
          ∧ s'.inventory = s.inventory
          ∧ ∃ it ∈ items, e = "Недостаточно товара " ++ it.sku) := by
  rcases hres : reserveAll s.inventory items with msg | inv1
  · constructor
    · intro m hm
      cases hm
      simp [db_create_order, hres]
    · intro e s' h
      simp only [db_create_order, hres, Prod.mk.injEq, PyRes.exc.injEq] at h
      obtain ⟨he, hs⟩ := h
      subst he
      subst hs
      exact ⟨rfl, rfl, rfl, rfl, reserveAll_error_mem _ _ _ hres⟩
  · constructor
    · intro m hm
      simp at hm
    · intro e s' h
      simp [db_create_order, hres] at h

/-- Witness for C1: a concrete store with 2 packs of product 1 and a request
for 5: the call raises `Недостаточно товара 0_5L` and returns the store
unchanged. -/
theorem create_order_all_or_nothing_witness :
    db_create_order ⟨[], [⟨1, 2, 0⟩], [], [], [], 1, 1⟩ 7 "telegram" "спб" "a"
        5000 0 5000 [⟨1, "0_5L", 5, 1000, 5000⟩]
      = (.exc "Недостаточно товара 0_5L", ⟨[], [⟨1, 2, 0⟩], [], [], [], 1, 1⟩) := by
  exact (create_order_all_or_nothing ⟨[], [⟨1, 2, 0⟩], [], [], [], 1, 1⟩ 7
    "telegram" "спб" "a" 5000 0 5000 [⟨1, "0_5L", 5, 1000, 5000⟩]).1
    "Недостаточно товара 0_5L" rfl

/-! ## Ledger invariant -/

/-- The `product_id` column of the `inventory` table. -/
def pids (rows : List InvRow) : List Nat := rows.map (·.product_id)

/-- The Inventory Ledger invariant: `0 ≤ reserved_packs ≤ stock_packs`
on every row. -/
def ledgerInv (rows : List InvRow) : Prop :=
  ∀ r ∈ rows, 0 ≤ r.reserved_packs ∧ r.reserved_packs ≤ r.stock_packs

/-- Net quantity requested for product `pid` across an item list. -/
def qtyFor : List OrderInput → Nat → Int
  | [], _ => 0
  | it :: rest, pid =>
    (if it.product_id = pid then it.qty else 0) + qtyFor rest pid

/-- Cumulative effect of the reservation pass on one row. -/
def reserveFold (items : List OrderInput) (r : InvRow) : InvRow :=
  items.foldl (fun r it => reserveRow it.product_id it.qty r) r

/-- Cumulative effect of the stock-deduction pass on one row. -/
def deductFold (items : List OrderInput) (r : InvRow) : InvRow :=
  items.foldl (fun r it => deductRow it.product_id it.qty r) r

/-- Along the reservation pass, every item aimed at this row's product found
its guard satisfied (which is forced when the pass as a whole succeeded and
`product_id` is a key). -/
def rowReservesOk : List OrderInput → InvRow → Prop
  | [], _ => True
  | it :: rest, r =>
    (r.product_id = it.product_id → (tryReserve r it.qty).2 = true)
    ∧ rowReservesOk rest (reserveRow it.product_id it.qty r)

theorem reserveRow_pid (pid : Nat) (qty : Int) (r : InvRow) :
    (reserveRow pid qty r).product_id = r.product_id := by
  unfold reserveRow
  split
  · exact tryReserve_pid r qty
  · rfl

theorem deductRow_pid (pid : Nat) (qty : Int) (r : InvRow) :
    (deductRow pid qty r).product_id = r.product_id := by
  unfold deductRow
  split <;> rfl

theorem pids_map_reserveRow (rows : List InvRow) (pid : Nat) (qty : Int) :
    pids (rows.map (reserveRow pid qty)) = pids rows := by
  unfold pids
  rw [List.map_map]
  exact List.map_congr_left fun r _ => reserveRow_pid pid qty r

/-- A fold of row-wise table updates is the table-wise map of the row folds. -/
theorem foldl_map_swap {α β : Type} (g : α → β → β) :
    ∀ (l : List α) (rows : List β),
      l.foldl (fun rs a => rs.map (g a)) rows
        = rows.map (fun b => l.foldl (fun b a => g a b) b) := by
  intro l
  induction l with
  | nil => intro rows; simp
  | cons a l ih =>
    intro rows
    simp only [List.foldl_cons]
    rw [ih, List.map_map]
    rfl

/-- A successful reservation pass maps every row through its per-row fold. -/
theorem reserveAll_ok_eq :
    ∀ (rows : List InvRow) (items : List OrderInput) (rows' : List InvRow),
      reserveAll rows items = .ok rows' →
      rows' = rows.map (reserveFold items) := by
  intro rows items
  induction items generalizing rows with
  | nil =>
    intro rows' h
    simp only [reserveAll] at h
    cases h
    rw [show reserveFold ([] : List OrderInput) = id from rfl, List.map_id]
  | cons it rest ih =>
    intro rows' h
    simp only [reserveAll] at h
    split at h
    · rw [ih _ _ h]
      simp only [reserveUpdate, List.map_map]
      rfl
    · cases h

/-- When the pass succeeds and `product_id` is duplicate-free, every row
individually had all of its guards satisfied. -/
theorem reserveAll_ok_rowOk :
    ∀ (rows : List InvRow) (items : List OrderInput) (rows' : List InvRow),
      (pids rows).Nodup →
      reserveAll rows items = .ok rows' →
      ∀ r ∈ rows, rowReservesOk items r := by
  intro rows items
  induction items generalizing rows with
  | nil => intro rows' _ _ r _; trivial
  | cons it rest ih =>
    intro rows' hnd h r hr
    simp only [reserveAll] at h
    split at h
    case isTrue hflag =>
      constructor
      · intro hpid
        simp only [reserveUpdate, List.any_eq_true, Bool.and_eq_true, beq_iff_eq]
          at hflag
        obtain ⟨r', hr', hpid', hok'⟩ := hflag
        have hrr : r' = r := by
          refine List.inj_on_of_nodup_map (f := fun r => r.product_id) ?_ hr' hr ?_
          · exact hnd
          · show r'.product_id = r.product_id
            rw [hpid', hpid]
        rw [← hrr]
        exact hok'
      · have hnd' : (pids ((reserveUpdate rows it.product_id it.qty).1)).Nodup := by
          simpa only [reserveUpdate, pids_map_reserveRow] using hnd
        exact ih _ _ hnd' h _
          (List.mem_map_of_mem (reserveRow it.product_id it.qty) hr)
    case isFalse => cases h

theorem reserveFold_stock (items : List OrderInput) (r : InvRow) :
    (reserveFold items r).stock_packs = r.stock_packs := by
  induction items generalizing r with
  | nil => rfl
  | cons it rest ih =>
    show (reserveFold rest (reserveRow it.product_id it.qty r)).stock_packs = _
    rw [ih]
    unfold reserveRow
    split
    · exact tryReserve_stock r it.qty
    · rfl

theorem reserveFold_pid (items : List OrderInput) (r : InvRow) :
    (reserveFold items r).product_id = r.product_id := by
  induction items generalizing r with
  | nil => rfl
  | cons it rest ih =>
    show (reserveFold rest (reserveRow it.product_id it.qty r)).product_id = _
    rw [ih, reserveRow_pid]

theorem reserveFold_reserved (items : List OrderInput) (r : InvRow)
    (h : rowReservesOk items r) :
    (reserveFold items r).reserved_packs
      = r.reserved_packs + qtyFor items r.product_id := by
  induction items generalizing r with
  | nil => simp [reserveFold, qtyFor]
  | cons it rest ih =>
    obtain ⟨h1, h2⟩ := h
    show (reserveFold rest (reserveRow it.product_id it.qty r)).reserved_packs = _
    rw [ih _ h2, reserveRow_pid]
    simp only [qtyFor]
    by_cases hpid : r.product_id = it.product_id
    · rw [reserveRow, if_pos hpid, tryReserve_of_true r it.qty (h1 hpid),
        if_pos hpid.symm]
      simp
      ring
    · rw [reserveRow, if_neg hpid, if_neg (Ne.symm hpid)]
      ring

theorem reserveFold_le (items : List OrderInput) (r : InvRow)
    (hok : rowReservesOk items r)
    (h : r.reserved_packs ≤ r.stock_packs) :
    (reserveFold items r).reserved_packs ≤ r.stock_packs := by
  induction items generalizing r with
  | nil => exact h
  | cons it rest ih =>
    obtain ⟨h1, h2⟩ := hok
    show (reserveFold rest (reserveRow it.product_id it.qty r)).reserved_packs ≤ _
    by_cases hpid : r.product_id = it.product_id
    · have hc := (tryReserve_true_iff r it.qty).mp (h1 hpid)
      have heq := tryReserve_of_true r it.qty (h1 hpid)
      rw [reserveRow, if_pos hpid, heq]
      rw [reserveRow, if_pos hpid, heq] at h2
      have hrec := ih { r with reserved_packs := r.reserved_packs + it.qty } h2
        (by simp; omega)
      simpa using hrec
    · rw [reserveRow, if_neg hpid]
      rw [reserveRow, if_neg hpid] at h2
      exact ih r h2 h

theorem deductFold_pid (items : List OrderInput) (r : InvRow) :
    (deductFold items r).product_id = r.product_id := by
  induction items generalizing r with
  | nil => rfl
  | cons it rest ih =>
    show (deductFold rest (deductRow it.product_id it.qty r)).product_id = _
    rw [ih, deductRow_pid]

theorem deductFold_reserved (items : List OrderInput) (r : InvRow) :
    (deductFold items r).reserved_packs
      = r.reserved_packs - qtyFor items r.product_id := by
  induction items generalizing r with
  | nil => simp [deductFold, qtyFor]
  | cons it rest ih =>
    show (deductFold rest (deductRow it.product_id it.qty r)).reserved_packs = _
    rw [ih, deductRow_pid]
    simp only [qtyFor]
    by_cases hpid : r.product_id = it.product_id
    · rw [deductRow, if_pos hpid, if_pos hpid.symm]
      simp
      ring
    · rw [deductRow, if_neg hpid, if_neg (Ne.symm hpid)]
      ring

theorem deductFold_stock (items : List OrderInput) (r : InvRow) :
    (deductFold items r).stock_packs
      = r.stock_packs - qtyFor items r.product_id := by
  induction items generalizing r with
  | nil => simp [deductFold, qtyFor]
  | cons it rest ih =>
    show (deductFold rest (deductRow it.product_id it.qty r)).stock_packs = _
    rw [ih, deductRow_pid]
    simp only [qtyFor]
    by_cases hpid : r.product_id = it.product_id
    · rw [deductRow, if_pos hpid, if_pos hpid.symm]
      simp
      ring
    · rw [deductRow, if_neg hpid, if_neg (Ne.symm hpid)]
      ring

/-- Inventory of the post-state of `db_create_order`, as per-row folds. -/
theorem db_create_order_inventory (s : DbState) (cid : Nat)
    (ch city addr : String) (tot disc fin : Int) (items : List OrderInput) :
    (db_create_order s cid ch city addr tot disc fin items).2.inventory
        = s.inventory
    ∨ ((db_create_order s cid ch city addr tot disc fin items).2.inventory
        = s.inventory.map (fun r => deductFold items (reserveFold items r))
      ∧ (∀ r ∈ s.inventory, (pids s.inventory).Nodup → rowReservesOk items r)) := by
  rcases hres : reserveAll s.inventory items with msg | inv1
  · left; simp [db_create_order, hres]
  · right
    constructor
    · simp only [db_create_order, hres]
      have h1 := reserveAll_ok_eq s.inventory items inv1 hres
      have h2 := foldl_map_swap
        (fun (it : OrderInput) (r : InvRow) => deductRow it.product_id it.qty r)
        items inv1
      simp only [deductUpdate]
      rw [show (fun (rows : List InvRow) (it : OrderInput) =>
          rows.map (deductRow it.product_id it.qty))
        = (fun rows it => rows.map
            ((fun (it : OrderInput) (r : InvRow) =>
              deductRow it.product_id it.qty r) it)) from rfl, h2, h1,
        List.map_map]
      rfl
    · intro r hr hnd
      exact reserveAll_ok_rowOk s.inventory items inv1 hnd hres r hr

/-- A single fulfillment call — successful or failed — preserves the ledger
invariant and the set of inventory keys. -/
theorem db_create_order_preserves (s : DbState) (cid : Nat)
    (ch city addr : String) (tot disc fin : Int) (items : List OrderInput)
    (hnd : (pids s.inventory).Nodup) (hinv : ledgerInv s.inventory) :
    ledgerInv (db_create_order s cid ch city addr tot disc fin items).2.inventory
    ∧ pids (db_create_order s cid ch city addr tot disc fin items).2.inventory
        = pids s.inventory := by
  rcases db_create_order_inventory s cid ch city addr tot disc fin items with
    heq | ⟨heq, hok⟩
  · rw [heq]; exact ⟨hinv, rfl⟩
  · rw [heq]
    constructor
    · intro r' hr'
      obtain ⟨r, hr, hmap⟩ := List.mem_map.mp hr'
      obtain ⟨hge, hle⟩ := hinv r hr
      have hrowOk := hok r hr hnd
      have hres := reserveFold_reserved items r hrowOk
      have hlee := reserveFold_le items r hrowOk hle
      have hdres := deductFold_reserved items (reserveFold items r)
      have hdstk := deductFold_stock items (reserveFold items r)
      have hfpid := reserveFold_pid items r
      have hfstk := reserveFold_stock items r
      rw [← hmap]
      rw [hfpid] at hdres hdstk
      constructor
      · rw [hdres, hres]; omega
      · rw [hdres, hdstk, hres, hfstk]; omega
    · unfold pids
      rw [List.map_map]
      exact List.map_congr_left fun r _ => by
        simp only [Function.comp_apply]
        rw [deductFold_pid, reserveFold_pid]

/-- One call of `Database.create_order` with its arguments. -/
structure OrderCall where
  customer_id : Nat
  channel : String
  city : String
  address : String
  total : Int
  discount : Int
  final : Int
  items : List OrderInput
  deriving DecidableEq, Repr

/-- Run a sequence of fulfillment transactions, observing the store between
any two of them. -/
def runOrders : DbState → List OrderCall → DbState
  | s, [] => s
  | s, c :: cs =>
    runOrders (db_create_order s c.customer_id c.channel c.city c.address
      c.total c.discount c.final c.items).2 cs

/-- C10: across every sequence of fulfillment transactions — reservations,
commits with stock deduction, order creation, and failed orders alike — the
ledger invariant `0 ≤ reserved_packs ≤ stock_packs` holds at every observable
state: each transaction commits with its reservations matched by commits, or
rolls back entirely. -/
theorem ledger_invariant_all_observable (s : DbState) (calls : List OrderCall)
    (hnd : (pids s.inventory).Nodup) (hinv : ledgerInv s.inventory) :
    ledgerInv (runOrders s calls).inventory
    ∧ pids (runOrders s calls).inventory = pids s.inventory := by
  induction calls generalizing s with
  | nil => exact ⟨hinv, rfl⟩
  | cons c cs ih =>
    simp only [runOrders]
    obtain ⟨hinv', hpids'⟩ := db_create_order_preserves s c.customer_id
      c.channel c.city c.address c.total c.discount c.final c.items hnd hinv
    obtain ⟨ha, hb⟩ := ih _ (by rwa [hpids']) hinv'
    exact ⟨ha, hb.trans hpids'⟩

/-- Witness for C10: a two-product store, one successful order draining
product 1 and one failed order, ends with a valid ledger. -/
theorem ledger_invariant_all_observable_witness :
    ledgerInv (runOrders ⟨[], [⟨1, 2, 0⟩, ⟨2, 5, 1⟩], [], [], [], 1, 1⟩
      [⟨7, "telegram", "спб", "a", 2000, 0, 2000, [⟨1, "0_5L", 2, 1000, 2000⟩]⟩,
       ⟨8, "telegram", "спб", "b", 9000, 900, 8100, [⟨2, "19L", 9, 1000, 9000⟩]⟩]).inventory := by
  exact (ledger_invariant_all_observable _ _ (by decide)
    (by intro r hr; fin_cases hr <;> simp)).1

/-! ## Tool Executor (`src/bot/tools.py`)

Tool arguments arrive as loosely-typed mappings from the provider; they are
modelled by `ToolArgs` / `ToolItem`, whose fields are the keys the handlers
read (`args.get(...)`), `none` standing for a missing key or JSON `null`.
Each handler returns a result string; helpers that touch the store also
return the post-state and the list of store operations they performed. -/

/-- One entry of an `items` argument: `{"sku": ..., "qty": ...}`, either key
possibly missing. -/
structure ToolItem where
  sku : Option String := none
  qty : Option Int := none
  deriving DecidableEq, Repr

/-- The argument mapping of a tool call, projected onto the keys the
handlers read. -/
structure ToolArgs where
  customer_name : Option String := none
  customer_phone : Option String := none
  city : Option String := none
  address : Option String := none
  sku : Option String := none
  items : Option (List ToolItem) := none
  deriving DecidableEq, Repr

/-- Store operations, recorded so that "no ledger/store access happened" is
expressible. -/
inductive DbOp where
  | customerSelect (phone : Option String)
  | customerInsert
  | productSelect (skus : List (Option String))
  | catalogSelect
  | orderTx
  deriving DecidableEq, Repr

/-- Python `str(x)` for a nullable string (`str(None) = "None"`), as used by
f-strings over `item.get("sku")`. -/
def pyStrOpt : Option String → String
  | none => "None"
  | some s => s

/-- Python `str.lower` restricted to the alphabets appearing here: ASCII
letters and Cyrillic (А-Я and Ё). -/
def pyLowerChar (c : Char) : Char :=
  if c.toNat ≥ 65 ∧ c.toNat ≤ 90 then Char.ofNat (c.toNat + 32)
  else if c.toNat ≥ 0x410 ∧ c.toNat ≤ 0x42F then Char.ofNat (c.toNat + 32)
  else if c.toNat = 0x401 then Char.ofNat 0x451
  else c

def pyLower (s : String) : String := String.mk (s.data.map pyLowerChar)

/-- Python's `needle in hay` substring test on character lists. -/
def listHasSub (needle : List Char) : List Char → Bool
  | [] => needle.isEmpty
  | c :: rest => needle.isPrefixOf (c :: rest) || listHasSub needle rest

/-- The allowed-city predicate of `tool_create_order`:
`"петербург" in city.lower() or "спб" in city.lower()`. -/
def cityAllowed (city : String) : Bool :=
  listHasSub "петербург".data (pyLower city).data
    || listHasSub "спб".data (pyLower city).data

/-- SQL `WHERE phone = $1`: `NULL` compares equal to nothing. -/
def phoneEq : Option String → Option String → Bool
  | some a, some b => a == b
  | _, _ => false

/-- `Database.get_or_create_customer`: look the customer up by phone, else
insert a new row and return its id. -/
def get_or_create_customer (s : DbState) (name phone : Option String)
    (city : String) : Nat × DbState × List DbOp :=
  match s.customers.find? (fun c => phoneEq c.phone phone) with
  | some c => (c.id, s, [DbOp.customerSelect phone])
  | none =>
    let cid := s.next_customer_id
    (cid,
     { s with
        customers := s.customers
          ++ [{ id := cid, name := name, phone := phone, city := city }],
        next_customer_id := cid + 1 },
     [DbOp.customerSelect phone, DbOp.customerInsert])

/-- A row of the product/inventory join read by `tool_create_order`. -/
structure ProdView where
  id : Nat
  sku : String
  price_per_pack : Int
  available : Int
  deriving DecidableEq, Repr

/-- `FROM products p JOIN inventory i ON p.id = i.product_id`. -/
def prodJoin (ps : List Product) (inv : List InvRow) : List ProdView :=
  (ps.map (fun p => (inv.filter (fun i => i.product_id == p.id)).map
    (fun i => ProdView.mk p.id p.sku p.price_per_pack
      (i.stock_packs - i.reserved_packs)))).flatten

/-- The join restricted by `WHERE p.sku IN (...)`; a `NULL` sku in the
argument list matches nothing. -/
def selectProducts (s : DbState) (skus : List (Option String)) : List ProdView :=
  (prodJoin s.products s.inventory).filter (fun r => skus.contains (some r.sku))

/-- `products = {r["sku"]: r for r in rows}` followed by `products.get(sku)`:
a dict comprehension keeps the last row per key, and `get(None)` is `None`. -/
def dictBySku (rows : List ProdView) : Option String → Option ProdView
  | none => none
  | some sk => (rows.filter (fun r => r.sku == sk)).getLast?

/-- The availability-check loop of `tool_create_order`: builds the
`order_items` payload and the running subtotal, or returns early with the
product-not-found / insufficient-stock message. -/
def buildItems (products : List ProdView) : List ToolItem →
    Except String (List OrderInput × Int)
  | [] => .ok ([], 0)
  | item :: rest =>
    match dictBySku products item.sku with
    | none => .error ("Товар " ++ pyStrOpt item.sku ++ " не найден")
    | some prod =>
      if prod.available < item.qty.getD 0 then
        .error ("Недостаточно товара " ++ pyStrOpt item.sku ++ ": доступно "
          ++ toString prod.available ++ ", запрошено " ++ toString (item.qty.getD 0))
      else
        match buildItems products rest with
        | .error m => .error m
        | .ok (tl, sub) =>
          .ok ({ product_id := prod.id, sku := pyStrOpt item.sku,
                 qty := item.qty.getD 0, price := prod.price_per_pack,
                 subtotal := prod.price_per_pack * item.qty.getD 0 } :: tl,
               prod.price_per_pack * item.qty.getD 0 + sub)

/-- `int(subtotal * 0.1)` from the source.  The Python expression computes in
binary floating point; for every amount in the range handled here (|subtotal|
far below 2^49, where the double-rounding error is under the distance to the
next integer) it equals truncating division by 10, which is the embedding. -/
def pyTenPercent (subtotal : Int) : Int := subtotal / 10

/-- The success message assembled at the end of `tool_create_order`
(`if discount:` is Python integer truthiness). -/
def successMsg (order_id : Nat) (subtotal discount final_amount : Int)
    (address city : String) : String :=
  "Заказ #" ++ toString order_id ++ " создан!\n"
    ++ "Сумма: " ++ toString subtotal ++ " руб"
    ++ (if discount ≠ 0 then ", скидка: " ++ toString discount ++ " руб" else "")
    ++ "\nИтого к оплате: " ++ toString final_amount ++ " руб\n"
    ++ "Адрес доставки: " ++ address ++ ", " ++ city ++ "\n"
    ++ "Ссылка на оплату будет отправлена отдельно."

/-- `tool_create_order`: geographic gate, empty-items gate, customer
resolution, product/availability pass, totals with the 10%-at-5000 discount,
then the fulfillment transaction. -/
def tool_create_order (s : DbState) (args : ToolArgs) :
    PyRes String × DbState × List DbOp :=
  let city := args.city.getD ""
  let address := args.address.getD ""
  let items := args.items.getD []
  if cityAllowed city = false then
    (.ok "Заказы через бота доступны только для Санкт-Петербурга. Для других городов используйте маркетплейсы.",
     s, [])
  else if items = [] then
    (.ok "Список товаров пуст", s, [])
  else
    let cres := get_or_create_customer s args.customer_name args.customer_phone city
    let s1 := cres.2.1
    let tr2 := cres.2.2 ++ [DbOp.productSelect (items.map (·.sku))]
    match buildItems (selectProducts s1 (items.map (·.sku))) items with
    | .error msg => (.ok msg, s1, tr2)
    | .ok (order_items, subtotal) =>
      let discount := if subtotal ≥ 5000 then pyTenPercent subtotal else 0
      let final_amount := subtotal - discount
      match db_create_order s1 cres.1 "telegram" city address subtotal discount
          final_amount order_items with
      | (.exc m, s2) => (.exc m, s2, tr2 ++ [DbOp.orderTx])
      | (.ok order_id, s2) =>
        (.ok (successMsg order_id subtotal discount final_amount address city),
         s2, tr2 ++ [DbOp.orderTx])

/-- The full catalog join (all product columns plus live availability),
read by `tool_get_products` and `tool_check_stock`. -/
def prodJoinFull (ps : List Product) (inv : List InvRow) : List (Product × Int) :=
  (ps.map (fun p => (inv.filter (fun i => i.product_id == p.id)).map
    (fun i => (p, i.stock_packs - i.reserved_packs)))).flatten

/-- `tool_get_products`: catalog listing with live availability.  The model
keeps `products` in primary-key order, matching `ORDER BY p.id`. -/
def tool_get_products (s : DbState) : String :=
  let rows := prodJoinFull s.products s.inventory
  if rows.isEmpty then "Товары не найдены в базе данных"
  else
    String.intercalate "\n" ("Товары AQUADOKS:" :: rows.map (fun pr =>
      "- " ++ pr.1.sku ++ ": " ++ pr.1.name ++ " (" ++ pr.1.volume ++ ", "
        ++ toString pr.1.pack_size ++ " шт в упаковке) — "
        ++ toString pr.1.price_per_pack ++ " руб/упаковка, в наличии: "
        ++ toString pr.2 ++ " упаковок"))

/-- `tool_check_stock`: single-product availability by sku. -/
def tool_check_stock (s : DbState) (sku : String) : String :=
  match (prodJoinFull s.products s.inventory).filter (fun pr => pr.1.sku == sku) with
  | [] => "Товар с SKU \x27" ++ sku
      ++ "\x27 не найден. Доступные SKU: 0_5L, 1L, 5L, 19L"
  | r :: _ =>
    "Товар " ++ r.1.sku ++ " (" ++ r.1.name ++ "): цена "
      ++ toString r.1.price_per_pack ++ " руб/упаковка, в наличии "
      ++ toString r.2 ++ " упаковок"

/-- `prices.get(sku)` over `SELECT sku, price_per_pack FROM products WHERE
sku IN (...)`. -/
def priceLookup (rows : List Product) : Option String → Option Int
  | none => none
  | some sk => ((rows.filter (fun r => r.sku == sk)).getLast?).map
      (·.price_per_pack)

/-- The per-item loop of `tool_calculate_order`: its printed lines and the
running subtotal.  `if not price:` treats both a missing product and a zero
price as not found (Python falsiness). -/
def calcItemsLoop (rows : List Product) : List ToolItem → List String × Int
  | [] => ([], 0)
  | item :: rest =>
    match priceLookup rows item.sku with
    | none =>
      (("- " ++ pyStrOpt item.sku ++ ": товар не найден")
        :: (calcItemsLoop rows rest).1, (calcItemsLoop rows rest).2)
    | some price =>
      if price = 0 then
        (("- " ++ pyStrOpt item.sku ++ ": товар не найден")
          :: (calcItemsLoop rows rest).1, (calcItemsLoop rows rest).2)
      else
        (("- " ++ pyStrOpt item.sku ++ " x " ++ toString (item.qty.getD 0)
            ++ " упаковок = " ++ toString (price * item.qty.getD 0) ++ " руб")
          :: (calcItemsLoop rows rest).1,
         price * item.qty.getD 0 + (calcItemsLoop rows rest).2)

/-- The price rows read by `tool_calculate_order`. -/
def calcRows (s : DbState) (items : List ToolItem) : List Product :=
  s.products.filter (fun p => (items.map (·.sku)).contains (some p.sku))

/-- The pricing preview's subtotal. -/
def calcSub (s : DbState) (items : List ToolItem) : Int :=
  (calcItemsLoop (calcRows s items) items).2

/-- All lines printed by `tool_calculate_order` for a non-empty item list. -/
def calcLines (s : DbState) (items : List ToolItem) : List String :=
  "Расчёт заказа:" :: (calcItemsLoop (calcRows s items) items).1
    ++ ["\nСумма: " ++ toString (calcSub s items) ++ " руб"]
    ++ (if calcSub s items ≥ 5000 then
          ["Скидка 10%: -" ++ toString (pyTenPercent (calcSub s items)) ++ " руб",
           "Итого: " ++ toString (calcSub s items - pyTenPercent (calcSub s items))
             ++ " руб"]
        else
          ["До скидки 10% не хватает " ++ toString (5000 - calcSub s items) ++ " руб",
           "Итого: " ++ toString (calcSub s items) ++ " руб"])

/-- `tool_calculate_order`: pure pricing preview, no reservation. -/
def tool_calculate_order (s : DbState) (items : List ToolItem) : String :=
  if items = [] then "Список товаров пуст"
  else String.intercalate "\n" (calcLines s items)

/-- The `except Exception as e: return f"Ошибка: {e}"` wrapper of
`execute_tool`. -/
def pyCatch (r : PyRes String × DbState × List DbOp) :
    PyRes String × DbState × List DbOp :=
  match r with
  | (.exc m, s, t) => (.ok ("Ошибка: " ++ m), s, t)
  | ok => ok

/-- `execute_tool`: the dispatch table, with unknown names resolved to a
descriptive string and every handler exception caught at the boundary. -/
def execute_tool (s : DbState) (name : String) (args : ToolArgs) :
    PyRes String × DbState × List DbOp :=
  pyCatch
    (if name = "get_products" then
      (.ok (tool_get_products s), s, [DbOp.catalogSelect])
    else if name = "check_stock" then
      (.ok (tool_check_stock s (args.sku.getD "")), s, [DbOp.catalogSelect])
    else if name = "calculate_order" then
      (.ok (tool_calculate_order s (args.items.getD [])), s, [DbOp.catalogSelect])
    else if name = "create_order" then
      tool_create_order s args
    else
      (.ok ("Неизвестная функция: " ++ name), s, []))

/-! ## Tool-Orchestration Loop (`src/bot/yandex_gpt.py`)

`YandexGPT.chat` is a loop of at most `MAX_TOOL_ROUNDS` provider calls.  The
non-deterministic external provider is modelled as a function from the round
index to its response for that round; a transport error (non-2xx status or a
payload the `data["result"]...` access rejects) is one response variant and
is re-raised by the loop's `except` blocks.  The loop's message bookkeeping
does not influence control flow, so the model tracks the result, the store
state mutated through `execute_tool`, and the number of provider calls. -/

/-- One `functionCall` entry of a tool-call batch
(`name`/`arguments` via `.get` with defaults). -/
structure ToolCallReq where
  name : String := ""
  args : ToolArgs := {}
  deriving DecidableEq, Repr

/-- A provider response: either a message (optionally carrying a
`toolCallList`) or a transport failure raised while calling/decoding. -/
inductive ProviderResponse where
  | message (toolCalls : Option (List ToolCallReq)) (text : String)
  | transportError (msg : String)
  deriving DecidableEq, Repr

/-- `true` iff the response carries a non-empty tool-call batch. -/
def wantsTools : ProviderResponse → Bool
  | .message (some (_ :: _)) _ => true
  | _ => false

/-- Execute one round's tool calls sequentially, in the order received. -/
def runToolCalls (s : DbState) : List ToolCallReq → DbState
  | [] => s
  | tc :: rest => runToolCalls (execute_tool s tc.name tc.args).2.1 rest

def MAX_TOOL_ROUNDS : Nat := 5

/-- The fixed apologetic fallback returned when the round ceiling is hit. -/
def fallbackText : String :=
  "Извините, не удалось обработать запрос. Попробуйте переформулировать."

/-- Outcome of one conversational turn. -/
inductive ChatResult where
  | completed (text : String)
  | transportFailure (msg : String)
  deriving DecidableEq, Repr

/-- The body of `YandexGPT.chat`'s `for round_num in range(MAX_TOOL_ROUNDS)`
loop: `fuel` is the number of remaining rounds, `idx` the current round
index.  Returns the turn result, the final store state, and the number of
provider calls performed. -/
def chatGo (provider : Nat → ProviderResponse) :
    Nat → Nat → DbState → ChatResult × DbState × Nat
  | 0, _, s => (.completed fallbackText, s, 0)
  | fuel + 1, idx, s =>
    match provider idx with
    | .transportError m => (.transportFailure m, s, 1)
    | .message none text => (.completed text, s, 1)
    | .message (some []) text => (.completed text, s, 1)
    | .message (some (tc :: tcs)) _ =>
      ((chatGo provider fuel (idx + 1) (runToolCalls s (tc :: tcs))).1,
       (chatGo provider fuel (idx + 1) (runToolCalls s (tc :: tcs))).2.1,
       (chatGo provider fuel (idx + 1) (runToolCalls s (tc :: tcs))).2.2 + 1)

/-- `YandexGPT.chat` for one turn. -/
def chat (provider : Nat → ProviderResponse) (s : DbState) :
    ChatResult × DbState × Nat :=
  chatGo provider MAX_TOOL_ROUNDS 0 s

/-! ## Geographic gate, executor totality, round bound, transport failures -/

/-- C5: when the delivery city fails the allowed-city predicate
(case-insensitive substring match), `tool_create_order` returns the
unsupported-region message with the store untouched and an empty operation
trace: no customer lookup, no inventory read or write, no reservation. -/
theorem unsupported_region_before_ledger (s : DbState) (args : ToolArgs)
    (h : cityAllowed (args.city.getD "") = false) :
    tool_create_order s args
      = (.ok "Заказы через бота доступны только для Санкт-Петербурга. Для других городов используйте маркетплейсы.",
         s, []) := by
  simp [tool_create_order, h]

/-- Witness for C5: a populated store and city `Москва`: the call returns the
unsupported-region message, the state unchanged, and no store operation. -/
theorem unsupported_region_before_ledger_witness :
    tool_create_order
        ⟨[⟨1, "1L", "Вода 1Л", "1 л", 12, 1000⟩], [⟨1, 10, 0⟩], [], [], [], 1, 1⟩
        { customer_name := some "Иван", customer_phone := some "+7999",
          city := some "Москва", address := some "x",
          items := some [⟨some "1L", some 2⟩] }
      = (.ok "Заказы через бота доступны только для Санкт-Петербурга. Для других городов используйте маркетплейсы.",
         ⟨[⟨1, "1L", "Вода 1Л", "1 л", 12, 1000⟩], [⟨1, 10, 0⟩], [], [], [], 1, 1⟩,
         []) :=
  unsupported_region_before_ledger _ _ (by decide)

theorem pyCatch_isReturn (r : PyRes String × DbState × List DbOp) :
    (pyCatch r).1.isReturn = true := by
  rcases r with ⟨pr, s, t⟩
  cases pr <;> rfl

/-- C7: the Tool Executor is total: for every tool name and argument mapping
the dispatch returns a normal string result — handler exceptions are caught
at the boundary and unknown tool names resolve to a descriptive string. -/
theorem execute_tool_total (s : DbState) (name : String) (args : ToolArgs) :
    ((execute_tool s name args).1.isReturn = true)
    ∧ (name ≠ "get_products" → name ≠ "check_stock" →
        name ≠ "calculate_order" → name ≠ "create_order" →
        execute_tool s name args
          = (.ok ("Неизвестная функция: " ++ name), s, [])) := by
  refine ⟨?_, fun h1 h2 h3 h4 => ?_⟩
  · unfold execute_tool
    exact pyCatch_isReturn _
  · simp [execute_tool, pyCatch, h1, h2, h3, h4]

/-- Witness for C7: an unknown tool name resolves to the descriptive string,
and a handler that raises internally (a duplicated-sku order whose second
reservation fails mid-transaction) is caught and answered as `Ошибка: ...`. -/
theorem execute_tool_total_witness :
    execute_tool ⟨[], [], [], [], [], 1, 1⟩ "drop_tables" {}
      = (.ok "Неизвестная функция: drop_tables", ⟨[], [], [], [], [], 1, 1⟩, [])
    ∧ (execute_tool
        ⟨[⟨1, "1L", "Вода 1Л", "1 л", 12, 1000⟩], [⟨1, 10, 0⟩], [], [], [], 1, 1⟩
        "create_order"
        { customer_name := some "Иван", customer_phone := some "+7999",
          city := some "спб", address := some "x",
          items := some [⟨some "1L", some 6⟩, ⟨some "1L", some 6⟩] }).1
      = .ok "Ошибка: Недостаточно товара 1L" := by
  have h := execute_tool_total ⟨[], [], [], [], [], 1, 1⟩ "drop_tables" {}
  exact ⟨h.2 (by decide) (by decide) (by decide) (by decide), by decide⟩

theorem chatGo_calls_le (provider : Nat → ProviderResponse) :
    ∀ (fuel idx : Nat) (s : DbState), (chatGo provider fuel idx s).2.2 ≤ fuel := by
  intro fuel
  induction fuel with
  | zero => intro idx s; simp [chatGo]
  | succ f ih =>
    intro idx s
    rcases hp : provider idx with ⟨tcl, text⟩ | m
    · rcases tcl with _ | tl
      · simp [chatGo, hp]
      · rcases tl with _ | ⟨tc, tcs⟩
        · simp [chatGo, hp]
        · simp only [chatGo, hp]
          have := ih (idx + 1) (runToolCalls s (tc :: tcs))
          omega
    · simp [chatGo, hp]

theorem chatGo_all_tools (provider : Nat → ProviderResponse) :
    ∀ (fuel idx : Nat) (s : DbState),
      (∀ i, idx ≤ i → i < idx + fuel → wantsTools (provider i) = true) →
      (chatGo provider fuel idx s).1 = .completed fallbackText := by
  intro fuel
  induction fuel with
  | zero => intro idx s _; rfl
  | succ f ih =>
    intro idx s h
    have hw := h idx (Nat.le_refl _) (by omega)
    rcases hp : provider idx with ⟨tcl, text⟩ | m
    · rcases tcl with _ | tl
      · rw [hp] at hw; simp [wantsTools] at hw
      · rcases tl with _ | ⟨tc, tcs⟩
        · rw [hp] at hw; simp [wantsTools] at hw
        · simp only [chatGo, hp]
          exact ih (idx + 1) _ (fun i h1 h2 => h i (by omega) (by omega))
    · rw [hp] at hw; simp [wantsTools] at hw

/-- C6: the orchestration loop performs at most `MAX_TOOL_ROUNDS = 5`
provider calls, and when every round keeps returning tool calls it
terminates after those 5 rounds with exactly the fixed apologetic fallback
string — never an unbounded retry. -/
theorem round_bound (provider : Nat → ProviderResponse) (s : DbState) :
    (chat provider s).2.2 ≤ MAX_TOOL_ROUNDS
    ∧ ((∀ i, i < MAX_TOOL_ROUNDS → wantsTools (provider i) = true) →
        (chat provider s).1 = .completed fallbackText) := by
  refine ⟨chatGo_calls_le provider MAX_TOOL_ROUNDS 0 s, fun h => ?_⟩
  exact chatGo_all_tools provider MAX_TOOL_ROUNDS 0 s
    (fun i _ h2 => h i (by omega))

/-- Witness for C6: a provider that always returns a tool call: the turn ends
with the fallback string after at most 5 provider calls. -/
theorem round_bound_witness :
    (chat (fun _ => .message (some [{ name := "get_products" }]) "")
        ⟨[], [], [], [], [], 1, 1⟩).1 = .completed fallbackText
    ∧ (chat (fun _ => .message (some [{ name := "get_products" }]) "")
        ⟨[], [], [], [], [], 1, 1⟩).2.2 ≤ MAX_TOOL_ROUNDS := by
  have h := round_bound (fun _ => .message (some [{ name := "get_products" }]) "")
    ⟨[], [], [], [], [], 1, 1⟩
  exact ⟨h.2 (fun i _ => rfl), h.1⟩

theorem chatGo_transport (provider : Nat → ProviderResponse) (m : String) :
    ∀ (k fuel idx : Nat) (s : DbState), k < fuel →
      (∀ j, j < k → wantsTools (provider (idx + j)) = true) →
      provider (idx + k) = .transportError m →
      (chatGo provider fuel idx s).1 = .transportFailure m
      ∧ (chatGo provider fuel idx s).2.2 = k + 1 := by
  intro k
  induction k with
  | zero =>
    intro fuel idx s hk hpre herr
    rcases fuel with _ | f
    · omega
    · rw [Nat.add_zero] at herr
      simp [chatGo, herr]
  | succ k ih =>
    intro fuel idx s hk hpre herr
    rcases fuel with _ | f
    · omega
    · have hw := hpre 0 (by omega)
      rw [Nat.add_zero] at hw
      rcases hp : provider idx with ⟨tcl, text⟩ | mm
      · rcases tcl with _ | tl
        · rw [hp] at hw; simp [wantsTools] at hw
        · rcases tl with _ | ⟨tc, tcs⟩
          · rw [hp] at hw; simp [wantsTools] at hw
          · simp only [chatGo, hp]
            have herr' : provider ((idx + 1) + k) = .transportError m := by
              rw [show (idx + 1) + k = idx + (k + 1) from by omega]
              exact herr
            have hpre' : ∀ j, j < k →
                wantsTools (provider ((idx + 1) + j)) = true := by
              intro j hj
              rw [show (idx + 1) + j = idx + (j + 1) from by omega]
              exact hpre (j + 1) (by omega)
            obtain ⟨h1, h2⟩ := ih f (idx + 1) (runToolCalls s (tc :: tcs))
              (by omega) hpre' herr'
            exact ⟨h1, by rw [h2]⟩
      · rw [hp] at hw; simp [wantsTools] at hw

/-- C9: a transport error in round `k` (after `k` tool-call rounds) aborts
the turn at once: the loop's result is the propagated transport failure — no
fallback text is substituted — and exactly `k + 1` provider calls were made,
so the failed call is never retried inside the loop. -/
theorem transport_error_aborts (provider : Nat → ProviderResponse)
    (s : DbState) (k : Nat) (m : String)
    (hk : k < MAX_TOOL_ROUNDS)
    (hpre : ∀ j, j < k → wantsTools (provider j) = true)
    (herr : provider k = .transportError m) :
    (chat provider s).1 = .transportFailure m
    ∧ (chat provider s).2.2 = k + 1 := by
  have h := chatGo_transport provider m k MAX_TOOL_ROUNDS 0 s hk
    (fun j hj => by simpa using hpre j hj) (by simpa using herr)
  simpa [chat] using h

/-- Witness for C9: one tool-call round, then an HTTP 500: the turn result is
the transport failure after exactly 2 provider calls. -/
theorem transport_error_aborts_witness :
    (chat (fun i => if i = 0 then .message (some [{ name := "get_products" }]) ""
                    else .transportError "HTTP 500") ⟨[], [], [], [], [], 1, 1⟩).1
      = .transportFailure "HTTP 500"
    ∧ (chat (fun i => if i = 0 then .message (some [{ name := "get_products" }]) ""
                      else .transportError "HTTP 500") ⟨[], [], [], [], [], 1, 1⟩).2.2
      = 2 := by
  have h := transport_error_aborts
    (fun i => if i = 0 then .message (some [{ name := "get_products" }]) ""
              else .transportError "HTTP 500")
    ⟨[], [], [], [], [], 1, 1⟩ 1 "HTTP 500" (by decide)
    (fun j hj => by
      have hj0 : j = 0 := by omega
      subst hj0
      rfl)
    rfl
  exact h

/-! ## Discount law and the product-not-found path -/

theorem get_or_create_customer_state (s : DbState) (n p : Option String)
    (c : String) :
    (get_or_create_customer s n p c).2.1.products = s.products
    ∧ (get_or_create_customer s n p c).2.1.inventory = s.inventory
    ∧ (get_or_create_customer s n p c).2.1.orders = s.orders
    ∧ (get_or_create_customer s n p c).2.1.order_items = s.order_items := by
  unfold get_or_create_customer
  split <;> exact ⟨rfl, rfl, rfl, rfl⟩

theorem db_create_order_exc_state (s : DbState) (cid : Nat)
    (ch city addr : String) (tot disc fin : Int) (items : List OrderInput)
    (e : String) (s2 : DbState)
    (h : db_create_order s cid ch city addr tot disc fin items = (.exc e, s2)) :
    s2 = s := by
  rcases hres : reserveAll s.inventory items with msg | inv1
  · simp only [db_create_order, hres, Prod.mk.injEq, PyRes.exc.injEq] at h
    exact h.2.symm
  · simp [db_create_order, hres] at h

theorem db_create_order_ok_orders (s : DbState) (cid : Nat)
    (ch city addr : String) (tot disc fin : Int) (items : List OrderInput)
    (oid : Nat) (s2 : DbState)
    (h : db_create_order s cid ch city addr tot disc fin items = (.ok oid, s2)) :
    s2.orders = s.orders
      ++ [{ id := s.next_order_id, customer_id := cid, channel := ch,
            city := city, address := addr, total_amount := tot,
            discount_amount := disc, final_amount := fin }] := by
  rcases hres : reserveAll s.inventory items with msg | inv1
  · simp [db_create_order, hres] at h
  · simp only [db_create_order, hres, Prod.mk.injEq, PyRes.ok.injEq] at h
    rw [← h.2]

theorem selectProducts_congr (s1 s : DbState) (skus : List (Option String))
    (hp : s1.products = s.products) (hi : s1.inventory = s.inventory) :
    selectProducts s1 skus = selectProducts s skus := by
  unfold selectProducts
  rw [hp, hi]

theorem getLast?_cons_append_two {α : Type} (a x y : α) (l1 l2 : List α) :
    (a :: (l1 ++ l2 ++ [x, y])).getLast? = some y := by
  have h : a :: (l1 ++ l2 ++ [x, y]) = (a :: (l1 ++ l2 ++ [x])) ++ [y] := by
    simp
  rw [h, List.getLast?_concat]

/-- `tool_create_order` either leaves the `orders` table unchanged or appends
exactly one row obeying the discount law. -/
theorem tool_create_order_orders_spec (s : DbState) (args : ToolArgs) :
    (tool_create_order s args).2.1.orders = s.orders
    ∨ ∃ o : OrderRow,
        (tool_create_order s args).2.1.orders = s.orders ++ [o]
        ∧ o.discount_amount
            = (if o.total_amount ≥ 5000 then pyTenPercent o.total_amount else 0)
        ∧ o.final_amount = o.total_amount - o.discount_amount := by
  by_cases h1 : cityAllowed (args.city.getD "") = false
  · left
    simp [tool_create_order, h1]
  · by_cases h2 : args.items.getD [] = []
    · left
      simp [tool_create_order, h1, h2]
    · simp only [tool_create_order]
      rw [if_neg h1, if_neg h2]
      split
      · left
        exact (get_or_create_customer_state s args.customer_name
          args.customer_phone (args.city.getD "")).2.2.1
      · split
        case _ m s2 heq2 =>
          left
          have hs2 := db_create_order_exc_state _ _ _ _ _ _ _ _ _ _ _ heq2
          show s2.orders = s.orders
          rw [hs2]
          exact (get_or_create_customer_state s args.customer_name
            args.customer_phone (args.city.getD "")).2.2.1
        case _ oid s2 heq2 =>
          right
          have hor := db_create_order_ok_orders _ _ _ _ _ _ _ _ _ _ _ heq2
          rw [(get_or_create_customer_state s args.customer_name
            args.customer_phone (args.city.getD "")).2.2.1] at hor
          exact ⟨_, hor, by simp, by simp⟩

/-- C4: every order written by `tool_create_order` satisfies the discount
law: `discount_amount` is the truncated 10% of `total_amount` iff the total
reaches 5000, else 0, and `final_amount = total_amount - discount_amount`;
the concrete instances 4999 / 5000 / 12345 behave as specified; and the
`calculate_order` pricing preview applies the same rule: its final line
prints `subtotal - pyTenPercent subtotal` whenever the subtotal reaches
5000. -/
theorem discount_law :
    (∀ (s : DbState) (args : ToolArgs) (o : OrderRow),
        o ∈ (tool_create_order s args).2.1.orders → o ∉ s.orders →
        o.discount_amount
            = (if o.total_amount ≥ 5000 then pyTenPercent o.total_amount else 0)
          ∧ o.final_amount = o.total_amount - o.discount_amount)
    ∧ (if (4999 : Int) ≥ 5000 then pyTenPercent 4999 else 0) = 0
    ∧ ((if (5000 : Int) ≥ 5000 then pyTenPercent 5000 else 0) = 500
        ∧ (5000 : Int) - pyTenPercent 5000 = 4500)
    ∧ ((if (12345 : Int) ≥ 5000 then pyTenPercent 12345 else 0) = 1234
        ∧ (12345 : Int) - pyTenPercent 12345 = 11111)
    ∧ (∀ (s : DbState) (items : List ToolItem), items ≠ [] →
        calcSub s items ≥ 5000 →
        tool_calculate_order s items = String.intercalate "\n" (calcLines s items)
        ∧ (calcLines s items).getLast?
            = some ("Итого: "
                ++ toString (calcSub s items - pyTenPercent (calcSub s items))
                ++ " руб")) := by
  refine ⟨?_, by decide, ⟨by decide, by decide⟩, ⟨by decide, by decide⟩, ?_⟩
  · intro s args o hmem hnot
    rcases tool_create_order_orders_spec s args with heq | ⟨o', heq, hd, hf⟩
    · rw [heq] at hmem
      exact absurd hmem hnot
    · rw [heq] at hmem
      rcases List.mem_append.mp hmem with hin | hin
      · exact absurd hin hnot
      · have : o = o' := by simpa using hin
        subst this
        exact ⟨hd, hf⟩
  · intro s items hne hge
    constructor
    · simp [tool_calculate_order, hne]
    · simp only [calcLines]
      rw [if_pos hge]
      exact getLast?_cons_append_two _ _ _ _ _

/-- Witness for C4: a 6-pack order at price 1000 creates the order row with
total 6000, discount 600, final 5400, and the pricing preview for the same
basket ends with `Итого: 5400 руб`. -/
theorem discount_law_witness :
    ((⟨1, 1, "telegram", "Санкт-Петербург", "ул. Ленина 1", 6000, 600, 5400⟩ : OrderRow).discount_amount
        = (if (6000 : Int) ≥ 5000 then pyTenPercent 6000 else 0)
      ∧ (⟨1, 1, "telegram", "Санкт-Петербург", "ул. Ленина 1", 6000, 600, 5400⟩ : OrderRow).final_amount
        = 6000 - (⟨1, 1, "telegram", "Санкт-Петербург", "ул. Ленина 1", 6000, 600, 5400⟩ : OrderRow).discount_amount)
    ∧ (calcLines ⟨[⟨1, "1L", "Вода 1Л", "1 л", 12, 1000⟩], [⟨1, 10, 0⟩], [], [], [], 1, 1⟩
        [⟨some "1L", some 6⟩]).getLast? = some "Итого: 5400 руб" := by
  have h := discount_law
  constructor
  · exact h.1
      ⟨[⟨1, "1L", "Вода 1Л", "1 л", 12, 1000⟩], [⟨1, 10, 0⟩], [], [], [], 1, 1⟩
      { customer_name := some "Иван", customer_phone := some "+7999",
        city := some "Санкт-Петербург", address := some "ул. Ленина 1",
        items := some [⟨some "1L", some 6⟩] }
      ⟨1, 1, "telegram", "Санкт-Петербург", "ул. Ленина 1", 6000, 600, 5400⟩
      (by decide) (by decide)
  · have h5 := (h.2.2.2.2
      ⟨[⟨1, "1L", "Вода 1Л", "1 л", 12, 1000⟩], [⟨1, 10, 0⟩], [], [], [], 1, 1⟩
      [⟨some "1L", some 6⟩] (by decide) (by decide)).2
    simpa using h5

/-- Counterexample to C8 as stated: with an empty `customers` table and an
order whose single item has an unknown sku, `tool_create_order` returns the
product-not-found message — but a new `Customer` row HAS been persisted,
because `get_or_create_customer` runs before the product lookup and outside
the fulfillment transaction. -/
theorem product_not_found_persists_customer :
    (tool_create_order
        ⟨[⟨1, "1L", "Вода 1Л", "1 л", 12, 1000⟩], [⟨1, 10, 0⟩], [], [], [], 1, 1⟩
        { customer_name := some "Иван", customer_phone := some "+7999",
          city := some "спб", address := some "ул. Ленина 1",
          items := some [⟨some "NOSUCH", some 1⟩] }).1
      = .ok "Товар NOSUCH не найден"
    ∧ (tool_create_order
        ⟨[⟨1, "1L", "Вода 1Л", "1 л", 12, 1000⟩], [⟨1, 10, 0⟩], [], [], [], 1, 1⟩
        { customer_name := some "Иван", customer_phone := some "+7999",
          city := some "спб", address := some "ул. Ленина 1",
          items := some [⟨some "NOSUCH", some 1⟩] }).2.1.customers
      = [{ id := 1, name := some "Иван", phone := some "+7999", city := "спб" }] := by
  constructor <;> rfl

/-- C8 (amended): when the item-check loop fails — a requested sku matching
no product, or insufficient availability — `tool_create_order` returns that
failure message and aborts the order: no `orders` row, no `order_items` row,
and no inventory change is written.  (A `Customer` row may still be created,
since customer resolution precedes the product check.) -/
theorem product_not_found_aborts_order (s : DbState) (args : ToolArgs)
    (msg : String)
    (h1 : cityAllowed (args.city.getD "") = true)
    (h2 : args.items.getD [] ≠ [])
    (hb : buildItems (selectProducts s ((args.items.getD []).map (·.sku)))
        (args.items.getD []) = .error msg) :
    (tool_create_order s args).1 = .ok msg
    ∧ (tool_create_order s args).2.1.orders = s.orders
    ∧ (tool_create_order s args).2.1.order_items = s.order_items
    ∧ (tool_create_order s args).2.1.inventory = s.inventory := by
  have hcs := get_or_create_customer_state s args.customer_name
    args.customer_phone (args.city.getD "")
  have hsel : selectProducts (get_or_create_customer s args.customer_name
        args.customer_phone (args.city.getD "")).2.1
        ((args.items.getD []).map (·.sku))
      = selectProducts s ((args.items.getD []).map (·.sku)) :=
    selectProducts_congr _ _ _ hcs.1 hcs.2.1
  simp only [tool_create_order]
  rw [if_neg (by simp [h1]), if_neg h2, hsel, hb]
  exact ⟨rfl, hcs.2.2.1, hcs.2.2.2, hcs.2.1⟩

/-- Witness for C8's amended theorem: the same unknown-sku request returns
the not-found message and leaves orders, order items and inventory exactly
as they were. -/
theorem product_not_found_aborts_order_witness :
    (tool_create_order
        ⟨[⟨1, "1L", "Вода 1Л", "1 л", 12, 1000⟩], [⟨1, 10, 0⟩], [], [⟨9, 9, "telegram", "спб", "x", 1, 0, 1⟩], [], 10, 1⟩
        { customer_name := some "Пётр", customer_phone := some "+7000",
          city := some "Питер спб", address := some "y",
          items := some [⟨some "5L", some 3⟩] }).1
      = .ok "Товар 5L не найден"
    ∧ (tool_create_order
        ⟨[⟨1, "1L", "Вода 1Л", "1 л", 12, 1000⟩], [⟨1, 10, 0⟩], [], [⟨9, 9, "telegram", "спб", "x", 1, 0, 1⟩], [], 10, 1⟩
        { customer_name := some "Пётр", customer_phone := some "+7000",
          city := some "Питер спб", address := some "y",
          items := some [⟨some "5L", some 3⟩] }).2.1.orders
      = [⟨9, 9, "telegram", "спб", "x", 1, 0, 1⟩]
    ∧ (tool_create_order
        ⟨[⟨1, "1L", "Вода 1Л", "1 л", 12, 1000⟩], [⟨1, 10, 0⟩], [], [⟨9, 9, "telegram", "спб", "x", 1, 0, 1⟩], [], 10, 1⟩
        { customer_name := some "Пётр", customer_phone := some "+7000",
          city := some "Питер спб", address := some "y",
          items := some [⟨some "5L", some 3⟩] }).2.1.inventory
      = [⟨1, 10, 0⟩] := by
  have h := product_not_found_aborts_order
    ⟨[⟨1, "1L", "Вода 1Л", "1 л", 12, 1000⟩], [⟨1, 10, 0⟩], [], [⟨9, 9, "telegram", "спб", "x", 1, 0, 1⟩], [], 10, 1⟩
    { customer_name := some "Пётр", customer_phone := some "+7000",
      city := some "Питер спб", address := some "y",
      items := some [⟨some "5L", some 3⟩] }
    "Товар 5L не найден" (by decide) (by decide) rfl
  exact ⟨h.1, h.2.1, h.2.2.2⟩

end Vodosasha
